import Mathlib

/-!
Verification of `ehforwarderbot/utils.py`: path-resolution helpers, the
chat-type emoji lookup, and the `extra` marker decorator.

Embedding conventions:
* A path (Python `str` used as a path) is a `List Char` (`Path`).
* The POSIX path primitives used by the code (`os.path.join`,
  `os.path.expanduser`) are embedded from CPython's `posixpath` semantics
  with separator `'/'`.
* The ambient process state read by the code — the environment variables
  `EFB_DATA_PATH` / `EFB_CACHE_PATH`, `getpass.getuser()`, the home
  directory used by `expanduser`, and `coordinator.profile` — is a record
  `Ctx` passed explicitly.
* The filesystem is modelled as the list `FS` of directories that exist
  (have been ensured); `os.makedirs(p, exist_ok=True)` inserts `p`.
  Each side-effecting function takes the filesystem and returns the
  computed path together with the updated filesystem.
-/

namespace EFB

/-- A filesystem path, as a list of characters (Python `str`). -/
abbrev Path := List Char

/-- The filesystem: the set (as a list) of directories that exist. -/
abbrev FS := List Path

/-- `os.makedirs(p, exist_ok=True)`: ensure directory `p` exists. -/
def makedirs (fs : FS) (p : Path) : FS :=
  if p ∈ fs then fs else p :: fs

/-- CPython `posixpath.join(a, b)`: if `b` starts with the separator it
replaces `a`; otherwise it is appended, inserting a separator unless `a`
is empty or already ends with one. -/
def join2 (a b : Path) : Path :=
  if b.head? = some '/' then b
  else if a = [] ∨ a.getLast? = some '/' then a ++ b
  else a ++ '/' :: b

/-- CPython `str.rstrip('/')` on a path. -/
def rstripSlashes (p : Path) : Path :=
  (p.reverse.dropWhile (fun c => c = '/')).reverse

/-- CPython `posixpath.expanduser` with home directory `home`: a leading
`~/` (or a lone `~`) is replaced by `home` stripped of trailing
separators (result `/` if that is empty); the `~user` form (a pwd
database lookup, outside this model) and paths not starting with `~` are
returned unchanged. -/
def expanduser (home : Path) (p : Path) : Path :=
  match p with
  | '~' :: rest =>
    if rest.head? = some '/' ∨ rest = [] then
      let r := rstripSlashes home ++ rest
      if r = [] then ['/'] else r
    else p
  | _ => p

/-- Python truthiness of `os.environ.get(var, None)` (and of an optional
string argument): `None` and the empty string are falsy. -/
def envTruthy : Option Path → Bool
  | some s => s ≠ []
  | none => false

/-- The ambient state read by `utils.py`: the two environment variables,
`getpass.getuser()`, the home directory used by `os.path.expanduser`,
and `coordinator.profile` (an opaque string owned by the external
coordinator, read fresh at call time). -/
structure Ctx where
  efb_data_path : Option Path
  efb_cache_path : Option Path
  username : Path
  home : Path
  profile : Path

/-- `get_base_path()`: `EFB_DATA_PATH`, if truthy, joined with the user
name and `""`; else `expanduser("~/.ehforwarderbot/")`; the directory is
created. -/
def get_base_path (c : Ctx) (fs : FS) : Path × FS :=
  let base_path :=
    if envTruthy c.efb_data_path then
      join2 (join2 (c.efb_data_path.getD []) c.username) []
    else
      expanduser c.home ("~/.ehforwarderbot/").data
  (base_path, makedirs fs base_path)

/-- `get_data_path(channel_id)`: `join(base, profile, channel_id, "")`,
created. -/
def get_data_path (c : Ctx) (channel_id : Path) (fs : FS) : Path × FS :=
  let bp := get_base_path c fs
  let data_path := join2 (join2 (join2 bp.1 c.profile) channel_id) []
  (data_path, makedirs bp.2 data_path)

/-- `get_config_path(channel_id=None, ext='yaml')`: the containing
directory is the channel's data path when `channel_id` is truthy, else
`join(base, profile)`; it is created, and `config.<ext>` is joined onto
it (the file itself is not touched). -/
def get_config_path (c : Ctx) (channel_id : Option Path) (ext : Path)
    (fs : FS) : Path × FS :=
  let bp := get_base_path c fs
  let cp :=
    if envTruthy channel_id then get_data_path c (channel_id.getD []) bp.2
    else (join2 bp.1 c.profile, bp.2)
  let fs3 := makedirs cp.2 cp.1
  (join2 cp.1 (("config.").data ++ ext), fs3)

/-- `get_cache_path(channel)`: `EFB_CACHE_PATH`, if truthy, joined with
user, profile, channel and `""`; else
`expanduser(join(expanduser("~/.ehforwarderbot/.cache/"), profile,
channel, ""))`; the directory is created. -/
def get_cache_path (c : Ctx) (channel : Path) (fs : FS) : Path × FS :=
  let base_path :=
    if envTruthy c.efb_cache_path then
      join2 (join2 (join2 (join2 (c.efb_cache_path.getD []) c.username)
        c.profile) channel) []
    else
      expanduser c.home
        (join2 (join2 (join2 (expanduser c.home
          ("~/.ehforwarderbot/.cache/").data) c.profile) channel) [])
  (base_path, makedirs fs base_path)

/-- `get_custom_channel_path()`: `join(base, "plugins")`, created. -/
def get_custom_channel_path (c : Ctx) (fs : FS) : Path × FS :=
  let bp := get_base_path c fs
  let channel_path := join2 bp.1 ("plugins").data
  (channel_path, makedirs bp.2 channel_path)

/-- A path ends with the POSIX separator. -/
def endsWithSep (p : Path) : Prop := p.getLast? = some '/'

instance (p : Path) : Decidable (endsWithSep p) := by
  unfold endsWithSep; infer_instance

/-- Modelled from the spec: the chat-type enumeration `ChatType` lives in
the external `constants` module, which is not part of this fragment; the
spec fixes the value set as `{User, Group, System, Unknown-or-other}`,
the last constructor standing for any other / out-of-range value. -/
inductive ChatType where
  | User : ChatType
  | Group : ChatType
  | System : ChatType
  | Unknown : ChatType
deriving DecidableEq

namespace Emoji

def GROUP_EMOJI : String := "👥"

def USER_EMOJI : String := "👤"

def SYSTEM_EMOJI : String := "💻"

def UNKNOWN_EMOJI : String := "❓"

def LINK_EMOJI : String := "🔗"

/-- `Emoji.get_source_emoji(t)`: the if/elif chain over the chat type. -/
def get_source_emoji (t : ChatType) : String :=
  if t = ChatType.User then USER_EMOJI
  else if t = ChatType.Group then GROUP_EMOJI
  else if t = ChatType.System then SYSTEM_EMOJI
  else UNKNOWN_EMOJI

end Emoji

/-- A Python attribute value as written by the `extra` decorator: a
boolean (`extra_fn`) or a string (`name`, `desc`). -/
inductive AttrVal where
  | b : Bool → AttrVal
  | s : String → AttrVal
deriving DecidableEq

/-- A Python callable: the underlying function together with its
attribute dictionary; a later `__setattr__` write shadows an earlier
one. -/
structure PyFunc (α β : Type) where
  fn : α → β
  attrs : List (String × AttrVal)

/-- `f.__setattr__(k, v)`. -/
def setAttr {α β : Type} (f : PyFunc α β) (k : String) (v : AttrVal) :
    PyFunc α β :=
  ⟨f.fn, (k, v) :: f.attrs⟩

/-- `getattr(f, k)`: the most recent write wins. -/
def getAttr {α β : Type} (f : PyFunc α β) (k : String) : Option AttrVal :=
  (f.attrs.find? (fun a => a.1 == k)).map (fun a => a.2)

/-- `extra(name, desc)`: returns the decorator `attr_dec`, which sets
`extra_fn := True`, `name` and `desc` on `f` and returns `f` itself. -/
def extra {α β : Type} (name desc : String) (f : PyFunc α β) :
    PyFunc α β :=
  setAttr (setAttr (setAttr f "extra_fn" (AttrVal.b true)) "name"
    (AttrVal.s name)) "desc" (AttrVal.s desc)

/-! ### Helper lemmas about the filesystem and path primitives -/

theorem mem_makedirs_self (fs : FS) (p : Path) : p ∈ makedirs fs p := by
  unfold makedirs
  split
  · assumption
  · exact List.mem_cons_self p fs

theorem mem_makedirs_of_mem {fs : FS} {q : Path} (h : q ∈ fs) (p : Path) :
    q ∈ makedirs fs p := by
  unfold makedirs
  split
  · exact h
  · exact List.mem_cons_of_mem _ h

theorem makedirs_eq_of_mem {fs : FS} {p : Path} (h : p ∈ fs) :
    makedirs fs p = fs := by
  unfold makedirs
  simp [h]

theorem mem_makedirs_iff {fs : FS} {p q : Path} :
    q ∈ makedirs fs p ↔ q = p ∨ q ∈ fs := by
  unfold makedirs
  split
  next h =>
    constructor
    · exact Or.inr
    · rintro (rfl | hq)
      · exact h
      · exact hq
  next h =>
    simp [List.mem_cons]

theorem join2_ne_nil_left {a : Path} (ha : a ≠ []) (b : Path) :
    join2 a b ≠ [] := by
  unfold join2
  split
  next h =>
    intro hb
    subst hb
    simp at h
  next =>
    split
    · intro h
      exact ha (List.append_eq_nil.mp h).1
    · intro h
      cases (List.append_eq_nil.mp h).2

theorem getLast_join2_nil {a : Path} (ha : a ≠ []) :
    (join2 a []).getLast? = some '/' := by
  unfold join2
  rw [if_neg (by simp)]
  by_cases hl : a.getLast? = some '/'
  · rw [if_pos (Or.inr hl), List.append_nil]
    exact hl
  · rw [if_neg (by simp [ha, hl]), List.getLast?_append_cons]
    rfl

theorem getLast_join2_of_ne {b : Path} (hb : b ≠ [])
    (hh : b.head? ≠ some '/') (a : Path) :
    (join2 a b).getLast? = b.getLast? := by
  unfold join2
  split
  next => rfl
  next =>
    split
    · exact List.getLast?_append_of_ne_nil _ hb
    · rw [List.getLast?_append_cons]
      cases b with
      | nil => cases hb rfl
      | cons x xs => rw [List.getLast?_cons_cons]

theorem endsWithSep_ne_nil {p : Path} (h : endsWithSep p) : p ≠ [] := by
  intro hp
  subst hp
  simp [endsWithSep] at h

theorem endsWithSep_expanduser (home : Path) {p : Path}
    (hp : endsWithSep p) : endsWithSep (expanduser home p) := by
  unfold expanduser
  split
  next rest =>
    split
    next hcond =>
      rcases hcond with hh | hnil
      · rcases rest with _ | ⟨d, rest2⟩
        · simp at hh
        · simp at hh
          subst hh
          rw [if_neg (by simp)]
          unfold endsWithSep at hp ⊢
          rw [List.getLast?_append_cons]
          rwa [List.getLast?_cons_cons] at hp
      · subst hnil
        simp [endsWithSep] at hp
    next => exact hp
  next => exact hp

theorem expanduser_tilde (home rest : Path) :
    expanduser home ('~' :: '/' :: rest)
      = rstripSlashes home ++ '/' :: rest := by
  show (if ('/' :: rest).head? = some '/' ∨ ('/' :: rest) = ([] : Path)
      then (let r := rstripSlashes home ++ '/' :: rest
            if r = [] then ['/'] else r)
      else '~' :: '/' :: rest)
    = rstripSlashes home ++ '/' :: rest
  simp

theorem envTruthy_eq_true {o : Option Path} :
    envTruthy o = true ↔ ∃ v, o = some v ∧ v ≠ [] := by
  cases o with
  | none => simp [envTruthy]
  | some v => simp [envTruthy]

theorem default_base_eq (home : Path) :
    expanduser home (("~/.ehforwarderbot/").data)
      = rstripSlashes home ++ ("/.ehforwarderbot/").data := by
  have h : ("~/.ehforwarderbot/").data
      = '~' :: '/' :: ((".ehforwarderbot/").data) := by decide
  have h2 : ("/.ehforwarderbot/").data
      = '/' :: ((".ehforwarderbot/").data) := by decide
  rw [h, h2, expanduser_tilde]

theorem default_cache_eq (home : Path) :
    expanduser home (("~/.ehforwarderbot/.cache/").data)
      = rstripSlashes home ++ ("/.ehforwarderbot/.cache/").data := by
  have h : ("~/.ehforwarderbot/.cache/").data
      = '~' :: '/' :: ((".ehforwarderbot/.cache/").data) := by decide
  have h2 : ("/.ehforwarderbot/.cache/").data
      = '/' :: ((".ehforwarderbot/.cache/").data) := by decide
  rw [h, h2, expanduser_tilde]

theorem endsWithSep_base (c : Ctx) (fs : FS) :
    endsWithSep (get_base_path c fs).1 := by
  show endsWithSep (if envTruthy c.efb_data_path then
      join2 (join2 (c.efb_data_path.getD []) c.username) []
    else expanduser c.home (("~/.ehforwarderbot/").data))
  split
  next h =>
    obtain ⟨v, hv, hvne⟩ := envTruthy_eq_true.mp h
    rw [hv]
    exact getLast_join2_nil (join2_ne_nil_left hvne _)
  next =>
    exact endsWithSep_expanduser _ (by decide)

theorem base_ne_nil (c : Ctx) (fs : FS) : (get_base_path c fs).1 ≠ [] :=
  endsWithSep_ne_nil (endsWithSep_base c fs)

theorem endsWithSep_data (c : Ctx) (ch : Path) (fs : FS) :
    endsWithSep (get_data_path c ch fs).1 := by
  show endsWithSep
    (join2 (join2 (join2 (get_base_path c fs).1 c.profile) ch) [])
  exact getLast_join2_nil
    (join2_ne_nil_left (join2_ne_nil_left (base_ne_nil c fs) _) _)

theorem join2_of_endsWithSep {a : Path} (ha : endsWithSep a) {b : Path}
    (hb : b.head? ≠ some '/') : join2 a b = a ++ b := by
  unfold join2
  rw [if_neg hb, if_pos (Or.inr (show a.getLast? = some '/' from ha))]

theorem endsWithSep_cache (c : Ctx) (ch : Path) (fs : FS) :
    endsWithSep (get_cache_path c ch fs).1 := by
  show endsWithSep (if envTruthy c.efb_cache_path then
      join2 (join2 (join2 (join2 (c.efb_cache_path.getD []) c.username)
        c.profile) ch) []
    else expanduser c.home
      (join2 (join2 (join2 (expanduser c.home
        (("~/.ehforwarderbot/.cache/").data)) c.profile) ch) []))
  split
  next h =>
    obtain ⟨v, hv, hvne⟩ := envTruthy_eq_true.mp h
    rw [hv]
    exact getLast_join2_nil
      (join2_ne_nil_left (join2_ne_nil_left (join2_ne_nil_left hvne _) _) _)
  next =>
    have h0 : expanduser c.home (("~/.ehforwarderbot/.cache/").data) ≠ [] := by
      rw [default_cache_eq]
      intro hx
      exact absurd (List.append_eq_nil.mp hx).2 (by decide)
    exact endsWithSep_expanduser _
      (getLast_join2_nil (join2_ne_nil_left (join2_ne_nil_left h0 _) _))

theorem base_mem (c : Ctx) (fs : FS) :
    (get_base_path c fs).1 ∈ (get_base_path c fs).2 :=
  mem_makedirs_self _ _

theorem base_snd_eq {c : Ctx} {fs : FS} (h : (get_base_path c fs).1 ∈ fs) :
    (get_base_path c fs).2 = fs :=
  makedirs_eq_of_mem h

theorem base_mem_data (c : Ctx) (ch : Path) (fs : FS) :
    (get_base_path c fs).1 ∈ (get_data_path c ch fs).2 :=
  mem_makedirs_of_mem (base_mem c fs) _

theorem data_mem (c : Ctx) (ch : Path) (fs : FS) :
    (get_data_path c ch fs).1 ∈ (get_data_path c ch fs).2 :=
  mem_makedirs_self _ _

theorem data_snd_eq {c : Ctx} {ch : Path} {fs : FS}
    (hB : (get_base_path c fs).1 ∈ fs)
    (hD : (get_data_path c ch fs).1 ∈ fs) :
    (get_data_path c ch fs).2 = fs := by
  show makedirs (get_base_path c fs).2 (get_data_path c ch fs).1 = fs
  rw [base_snd_eq hB]
  exact makedirs_eq_of_mem hD

theorem base_mem_custom (c : Ctx) (fs : FS) :
    (get_base_path c fs).1 ∈ (get_custom_channel_path c fs).2 :=
  mem_makedirs_of_mem (base_mem c fs) _

theorem custom_mem (c : Ctx) (fs : FS) :
    (get_custom_channel_path c fs).1 ∈ (get_custom_channel_path c fs).2 :=
  mem_makedirs_self _ _

theorem custom_snd_eq {c : Ctx} {fs : FS}
    (hB : (get_base_path c fs).1 ∈ fs)
    (hP : (get_custom_channel_path c fs).1 ∈ fs) :
    (get_custom_channel_path c fs).2 = fs := by
  show makedirs (get_base_path c fs).2 (get_custom_channel_path c fs).1 = fs
  rw [base_snd_eq hB]
  exact makedirs_eq_of_mem hP

theorem config_fst_eq (c : Ctx) (chOpt : Option Path) (ext : Path)
    (fs : FS) :
    (get_config_path c chOpt ext fs).1
      = join2 (if envTruthy chOpt then (get_data_path c (chOpt.getD []) fs).1
               else join2 (get_base_path c fs).1 c.profile)
          ((("config.").data) ++ ext) := by
  show join2 (if envTruthy chOpt then
      get_data_path c (chOpt.getD []) (get_base_path c fs).2
    else (join2 (get_base_path c fs).1 c.profile,
      (get_base_path c fs).2)).1 ((("config.").data) ++ ext) = _
  by_cases h : envTruthy chOpt = true
  · rw [if_pos h, if_pos h]
    rfl
  · rw [if_neg h, if_neg h]

theorem config_fst_indep (c : Ctx) (chOpt : Option Path) (ext : Path)
    (fs fs2 : FS) :
    (get_config_path c chOpt ext fs).1
      = (get_config_path c chOpt ext fs2).1 := by
  rw [config_fst_eq, config_fst_eq]
  rfl

theorem config_mem_iff (c : Ctx) (chOpt : Option Path) (ext : Path)
    (fs : FS) (p : Path) :
    p ∈ (get_config_path c chOpt ext fs).2
      ↔ p = (if envTruthy chOpt then (get_data_path c (chOpt.getD []) fs).1
             else join2 (get_base_path c fs).1 c.profile)
        ∨ p = (get_base_path c fs).1 ∨ p ∈ fs := by
  show p ∈ makedirs (if envTruthy chOpt then
      get_data_path c (chOpt.getD []) (get_base_path c fs).2
    else (join2 (get_base_path c fs).1 c.profile,
      (get_base_path c fs).2)).2
    (if envTruthy chOpt then
      get_data_path c (chOpt.getD []) (get_base_path c fs).2
    else (join2 (get_base_path c fs).1 c.profile,
      (get_base_path c fs).2)).1 ↔ _
  by_cases h : envTruthy chOpt = true
  · rw [if_pos h, if_pos h]
    show p ∈ makedirs (makedirs (makedirs (makedirs fs
        (get_base_path c fs).1) (get_base_path c fs).1)
        (get_data_path c (chOpt.getD []) fs).1)
        (get_data_path c (chOpt.getD []) fs).1 ↔ _
    simp only [mem_makedirs_iff]
    tauto
  · rw [if_neg h, if_neg h]
    show p ∈ makedirs (makedirs fs (get_base_path c fs).1)
        (join2 (get_base_path c fs).1 c.profile) ↔ _
    simp only [mem_makedirs_iff]
    try tauto

theorem config_snd_eq {c : Ctx} {chOpt : Option Path} {ext : Path} {fs : FS}
    (hB : (get_base_path c fs).1 ∈ fs)
    (hCD : (if envTruthy chOpt then (get_data_path c (chOpt.getD []) fs).1
            else join2 (get_base_path c fs).1 c.profile) ∈ fs) :
    (get_config_path c chOpt ext fs).2 = fs := by
  show makedirs (if envTruthy chOpt then
      get_data_path c (chOpt.getD []) (get_base_path c fs).2
    else (join2 (get_base_path c fs).1 c.profile,
      (get_base_path c fs).2)).2
    (if envTruthy chOpt then
      get_data_path c (chOpt.getD []) (get_base_path c fs).2
    else (join2 (get_base_path c fs).1 c.profile,
      (get_base_path c fs).2)).1 = fs
  by_cases h : envTruthy chOpt = true
  · rw [if_pos h] at hCD ⊢
    show makedirs (get_data_path c (chOpt.getD [])
        (get_base_path c fs).2).2
      (get_data_path c (chOpt.getD []) (get_base_path c fs).2).1 = fs
    rw [base_snd_eq hB, data_snd_eq hB hCD]
    exact makedirs_eq_of_mem hCD
  · rw [if_neg h] at hCD ⊢
    show makedirs (get_base_path c fs).2
      (join2 (get_base_path c fs).1 c.profile) = fs
    rw [base_snd_eq hB]
    exact makedirs_eq_of_mem hCD

theorem cache_mem (c : Ctx) (ch : Path) (fs : FS) :
    (get_cache_path c ch fs).1 ∈ (get_cache_path c ch fs).2 :=
  mem_makedirs_self _ _

theorem cache_snd_eq {c : Ctx} {ch : Path} {fs : FS}
    (h : (get_cache_path c ch fs).1 ∈ fs) :
    (get_cache_path c ch fs).2 = fs :=
  makedirs_eq_of_mem h

/-! ### Claim theorems -/

/-- Claim C1, counterexample: `EFB_DATA_PATH` set to the empty string is
a set variable, yet `get_base_path` does not return the override joined
with the OS user name — it falls back to the home default (the check is
on truthiness, not presence). -/
theorem get_base_path_set_empty_cex :
    ¬ ((get_base_path ⟨some [], none, ("alice").data, ("/home/alice").data,
        ("default").data⟩ []).1
      = join2 (join2 ([] : Path) (("alice").data)) []) := by decide

/-- Claim C1 (amended: the override branch is taken when `EFB_DATA_PATH`
is set to a non-empty string; when it is absent — or empty — the fixed
home-relative default is returned): `get_base_path` returns the override
joined with the OS user name and a trailing separator when the variable
is truthy, returns `<home>/.ehforwarderbot/` when it is absent or empty,
and in both cases the result ends with a path separator. -/
theorem get_base_path_spec (c : Ctx) (fs : FS) :
    (∀ v, c.efb_data_path = some v → v ≠ [] →
      (get_base_path c fs).1 = join2 (join2 v c.username) [])
    ∧ ((c.efb_data_path = none ∨ c.efb_data_path = some []) →
      (get_base_path c fs).1
        = rstripSlashes c.home ++ ("/.ehforwarderbot/").data)
    ∧ endsWithSep (get_base_path c fs).1 := by
  refine ⟨?_, ?_, endsWithSep_base c fs⟩
  · intro v hv hvne
    show (if envTruthy c.efb_data_path then
        join2 (join2 (c.efb_data_path.getD []) c.username) []
      else expanduser c.home (("~/.ehforwarderbot/").data))
      = join2 (join2 v c.username) []
    rw [if_pos (envTruthy_eq_true.mpr ⟨v, hv, hvne⟩), hv]
    rfl
  · intro hv
    show (if envTruthy c.efb_data_path then
        join2 (join2 (c.efb_data_path.getD []) c.username) []
      else expanduser c.home (("~/.ehforwarderbot/").data))
      = rstripSlashes c.home ++ ("/.ehforwarderbot/").data
    have hf : envTruthy c.efb_data_path = false := by
      rcases hv with h | h <;> rw [h] <;> simp [envTruthy]
    rw [hf]
    simp only [Bool.false_eq_true, if_false]
    exact default_base_eq c.home

/-- Claim C1, witness: both branches of `get_base_path_spec`
instantiated at concrete states. -/
theorem get_base_path_spec_witness :
    (get_base_path ⟨some (("/tmp/efb").data), none, ("alice").data,
        ("/home/alice").data, ("default").data⟩ []).1
      = join2 (join2 (("/tmp/efb").data) (("alice").data)) []
    ∧ (get_base_path ⟨none, none, ("alice").data, ("/home/alice").data,
        ("default").data⟩ []).1
      = rstripSlashes (("/home/alice").data) ++ ("/.ehforwarderbot/").data :=
  ⟨(get_base_path_spec _ _).1 _ rfl (by decide),
   (get_base_path_spec _ _).2.1 (Or.inl rfl)⟩

/-- Claim C2: for every channel id (any string, passed through with no
validation), `get_data_path` returns the base path joined with the
current profile, the channel id and a trailing separator, and that
directory exists afterwards; in the concrete scenario
(`EFB_DATA_PATH=/tmp/efb`, OS user `alice`, profile `default`, channel
`irc`) it returns `/tmp/efb/alice/default/irc/`, which then exists. -/
theorem get_data_path_spec (c : Ctx) (channel_id : Path) (fs : FS) :
    ((get_data_path c channel_id fs).1
      = join2 (join2 (join2 (get_base_path c fs).1 c.profile) channel_id) [])
    ∧ endsWithSep (get_data_path c channel_id fs).1
    ∧ (get_data_path c channel_id fs).1 ∈ (get_data_path c channel_id fs).2
    ∧ (get_data_path ⟨some (("/tmp/efb").data), none, ("alice").data,
        ("/home/alice").data, ("default").data⟩ (("irc").data) []).1
      = ("/tmp/efb/alice/default/irc/").data
    ∧ ("/tmp/efb/alice/default/irc/").data
      ∈ (get_data_path ⟨some (("/tmp/efb").data), none, ("alice").data,
        ("/home/alice").data, ("default").data⟩ (("irc").data) []).2 :=
  ⟨rfl, endsWithSep_data c channel_id fs, mem_makedirs_self _ _,
   by decide, by decide⟩

/-- Claim C3: with no channel id `get_config_path` returns
`<base>/<profile>/config.yaml`; with channel id `"foo"` it returns the
channel data path `<base>/<profile>/foo/` joined with `config.yaml`;
the extension argument names the file `config.<ext>`, so `"json"`
yields `config.json`; checked concretely on a default environment. -/
theorem get_config_path_spec (c : Ctx) (ext : Path) (fs : FS) :
    ((get_config_path c none (("yaml").data) fs).1
      = join2 (join2 (get_base_path c fs).1 c.profile) (("config.yaml").data))
    ∧ ((get_config_path c (some (("foo").data)) (("yaml").data) fs).1
      = join2 (get_data_path c (("foo").data) fs).1 (("config.yaml").data))
    ∧ ((get_config_path c none ext fs).1
      = join2 (join2 (get_base_path c fs).1 c.profile)
          ((("config.").data) ++ ext))
    ∧ ((get_config_path c none (("json").data) fs).1
      = join2 (join2 (get_base_path c fs).1 c.profile) (("config.json").data))
    ∧ (get_config_path ⟨none, none, ("alice").data, ("/home/alice").data,
        ("default").data⟩ none (("yaml").data) []).1
      = ("/home/alice/.ehforwarderbot/default/config.yaml").data
    ∧ (get_config_path ⟨none, none, ("alice").data, ("/home/alice").data,
        ("default").data⟩ (some (("foo").data)) (("yaml").data) []).1
      = ("/home/alice/.ehforwarderbot/default/foo/config.yaml").data
    ∧ (get_config_path ⟨none, none, ("alice").data, ("/home/alice").data,
        ("default").data⟩ none (("json").data) []).1
      = ("/home/alice/.ehforwarderbot/default/config.json").data := by
  have hy : (("config.").data) ++ (("yaml").data) = ("config.yaml").data := by
    decide
  have hj : (("config.").data) ++ (("json").data) = ("config.json").data := by
    decide
  refine ⟨?_, ?_, rfl, ?_, by decide, by decide, by decide⟩
  · rw [← hy]
    rfl
  · rw [← hy]
    rfl
  · rw [← hj]
    rfl

/-- Claim C4, counterexample: `EFB_CACHE_PATH` set to the empty string
is a set variable, yet `get_cache_path` does not return the override
scoped by user, profile and channel — it falls back to the home cache
default (the check is on truthiness, not presence). -/
theorem get_cache_path_set_empty_cex :
    ¬ ((get_cache_path ⟨none, some [], ("alice").data, ("/home/alice").data,
        ("default").data⟩ (("irc").data) []).1
      = join2 (join2 (join2 (join2 ([] : Path) (("alice").data))
          (("default").data)) (("irc").data)) []) := by decide

/-- Claim C4 (amended: the override branch is taken when
`EFB_CACHE_PATH` is set to a non-empty string; when it is absent — or
empty — the home cache default is used): `get_cache_path` returns the
override joined with user, profile, channel and a trailing separator
when the variable is truthy, returns
`<home>/.ehforwarderbot/.cache/<profile>/<channel>/` when it is absent
or empty, and always ends with a path separator; the directory exists
afterwards. -/
theorem get_cache_path_spec (c : Ctx) (channel : Path) (fs : FS) :
    (∀ v, c.efb_cache_path = some v → v ≠ [] →
      (get_cache_path c channel fs).1
        = join2 (join2 (join2 (join2 v c.username) c.profile) channel) [])
    ∧ ((c.efb_cache_path = none ∨ c.efb_cache_path = some []) →
      (get_cache_path c channel fs).1
        = expanduser c.home (join2 (join2 (join2 (rstripSlashes c.home
            ++ ("/.ehforwarderbot/.cache/").data) c.profile) channel) []))
    ∧ endsWithSep (get_cache_path c channel fs).1
    ∧ (get_cache_path c channel fs).1 ∈ (get_cache_path c channel fs).2
    ∧ (get_cache_path ⟨none, none, ("alice").data, ("/home/alice").data,
        ("default").data⟩ (("irc").data) []).1
      = ("/home/alice/.ehforwarderbot/.cache/default/irc/").data
    ∧ (get_cache_path ⟨none, some (("/var/efbcache").data), ("alice").data,
        ("/home/alice").data, ("default").data⟩ (("irc").data) []).1
      = ("/var/efbcache/alice/default/irc/").data := by
  refine ⟨?_, ?_, endsWithSep_cache c channel fs, mem_makedirs_self _ _,
    by decide, by decide⟩
  · intro v hv hvne
    show (if envTruthy c.efb_cache_path then
        join2 (join2 (join2 (join2 (c.efb_cache_path.getD []) c.username)
          c.profile) channel) []
      else expanduser c.home
        (join2 (join2 (join2 (expanduser c.home
          (("~/.ehforwarderbot/.cache/").data)) c.profile) channel) []))
      = join2 (join2 (join2 (join2 v c.username) c.profile) channel) []
    rw [if_pos (envTruthy_eq_true.mpr ⟨v, hv, hvne⟩), hv]
    rfl
  · intro hv
    show (if envTruthy c.efb_cache_path then
        join2 (join2 (join2 (join2 (c.efb_cache_path.getD []) c.username)
          c.profile) channel) []
      else expanduser c.home
        (join2 (join2 (join2 (expanduser c.home
          (("~/.ehforwarderbot/.cache/").data)) c.profile) channel) []))
      = expanduser c.home (join2 (join2 (join2 (rstripSlashes c.home
          ++ ("/.ehforwarderbot/.cache/").data) c.profile) channel) [])
    have hf : envTruthy c.efb_cache_path = false := by
      rcases hv with h | h <;> rw [h] <;> simp [envTruthy]
    rw [hf]
    simp only [Bool.false_eq_true, if_false]
    rw [default_cache_eq]

/-- Claim C4, witness: both branches of `get_cache_path_spec`
instantiated at concrete states. -/
theorem get_cache_path_spec_witness :
    (get_cache_path ⟨none, some (("/var/efbcache").data), ("alice").data,
        ("/home/alice").data, ("default").data⟩ (("irc").data) []).1
      = join2 (join2 (join2 (join2 (("/var/efbcache").data)
          (("alice").data)) (("default").data)) (("irc").data)) []
    ∧ (get_cache_path ⟨none, none, ("alice").data, ("/home/alice").data,
        ("default").data⟩ (("irc").data) []).1
      = expanduser (("/home/alice").data)
          (join2 (join2 (join2 (rstripSlashes (("/home/alice").data)
            ++ ("/.ehforwarderbot/.cache/").data) (("default").data))
            (("irc").data)) []) :=
  ⟨(get_cache_path_spec _ _ _).1 _ rfl (by decide),
   (get_cache_path_spec _ _ _).2.1 (Or.inl rfl)⟩

/-- Claim C5, counterexample: with no overrides set, the plugins path
returned by `get_custom_channel_path` does not end with a path
separator (the code joins `"plugins"` without a trailing empty
component). -/
theorem get_custom_channel_path_no_sep_cex :
    ¬ endsWithSep (get_custom_channel_path ⟨none, none, ("alice").data,
        ("/home/alice").data, ("default").data⟩ []).1 := by decide

/-- Claim C5 (amended: the returned path is the base path joined with
`plugins` with NO trailing separator): with no environment override
set, `get_custom_channel_path` returns
`<home>/.ehforwarderbot/plugins` (no trailing separator), and the
directory exists afterwards. -/
theorem get_custom_channel_path_spec (c : Ctx) (fs : FS)
    (h : c.efb_data_path = none) :
    (get_custom_channel_path c fs).1
      = rstripSlashes c.home ++ ("/.ehforwarderbot/plugins").data
    ∧ ¬ endsWithSep (get_custom_channel_path c fs).1
    ∧ (get_custom_channel_path c fs).1 ∈ (get_custom_channel_path c fs).2 := by
  have hbase : (get_base_path c fs).1
      = rstripSlashes c.home ++ ("/.ehforwarderbot/").data :=
    (get_base_path_spec c fs).2.1 (Or.inl h)
  have hres : (get_custom_channel_path c fs).1
      = rstripSlashes c.home ++ ("/.ehforwarderbot/plugins").data := by
    show join2 (get_base_path c fs).1 (("plugins").data)
      = rstripSlashes c.home ++ ("/.ehforwarderbot/plugins").data
    rw [join2_of_endsWithSep (endsWithSep_base c fs) (by decide), hbase,
      List.append_assoc]
    rw [show ("/.ehforwarderbot/").data ++ ("plugins").data
      = ("/.ehforwarderbot/plugins").data from by decide]
  refine ⟨hres, ?_, mem_makedirs_self _ _⟩
  rw [hres]
  unfold endsWithSep
  rw [List.getLast?_append_of_ne_nil _ (by decide)]
  decide

/-- Claim C5, witness: `get_custom_channel_path_spec` at a concrete
override-free state. -/
theorem get_custom_channel_path_spec_witness :
    (get_custom_channel_path ⟨none, none, ("alice").data,
        ("/home/alice").data, ("default").data⟩ []).1
      = rstripSlashes (("/home/alice").data)
        ++ ("/.ehforwarderbot/plugins").data
    ∧ ¬ endsWithSep (get_custom_channel_path ⟨none, none, ("alice").data,
        ("/home/alice").data, ("default").data⟩ []).1
    ∧ (get_custom_channel_path ⟨none, none, ("alice").data,
        ("/home/alice").data, ("default").data⟩ []).1
      ∈ (get_custom_channel_path ⟨none, none, ("alice").data,
        ("/home/alice").data, ("default").data⟩ []).2 :=
  get_custom_channel_path_spec _ _ rfl

/-- Claim C6: every path-resolution function is idempotent — calling it
twice with the same inputs and unchanged environment/profile state
returns the same path string both times and leaves the filesystem of
the first call unchanged, and the target directory (for
`get_config_path`, the containing directory of the config file) exists
after the first call (hence after either call, the second changing
nothing). -/
theorem path_resolution_idempotent (c : Ctx) (channel : Path)
    (chOpt : Option Path) (ext : Path) (fs : FS) :
    ((get_base_path c (get_base_path c fs).2).1 = (get_base_path c fs).1
      ∧ (get_base_path c (get_base_path c fs).2).2 = (get_base_path c fs).2
      ∧ (get_base_path c fs).1 ∈ (get_base_path c fs).2)
    ∧ ((get_data_path c channel (get_data_path c channel fs).2).1
        = (get_data_path c channel fs).1
      ∧ (get_data_path c channel (get_data_path c channel fs).2).2
        = (get_data_path c channel fs).2
      ∧ (get_data_path c channel fs).1 ∈ (get_data_path c channel fs).2)
    ∧ ((get_config_path c chOpt ext (get_config_path c chOpt ext fs).2).1
        = (get_config_path c chOpt ext fs).1
      ∧ (get_config_path c chOpt ext (get_config_path c chOpt ext fs).2).2
        = (get_config_path c chOpt ext fs).2
      ∧ (if envTruthy chOpt then (get_data_path c (chOpt.getD []) fs).1
         else join2 (get_base_path c fs).1 c.profile)
        ∈ (get_config_path c chOpt ext fs).2)
    ∧ ((get_cache_path c channel (get_cache_path c channel fs).2).1
        = (get_cache_path c channel fs).1
      ∧ (get_cache_path c channel (get_cache_path c channel fs).2).2
        = (get_cache_path c channel fs).2
      ∧ (get_cache_path c channel fs).1 ∈ (get_cache_path c channel fs).2)
    ∧ ((get_custom_channel_path c (get_custom_channel_path c fs).2).1
        = (get_custom_channel_path c fs).1
      ∧ (get_custom_channel_path c (get_custom_channel_path c fs).2).2
        = (get_custom_channel_path c fs).2
      ∧ (get_custom_channel_path c fs).1
        ∈ (get_custom_channel_path c fs).2) := by
  refine ⟨⟨rfl, base_snd_eq (base_mem c fs), base_mem c fs⟩,
    ⟨rfl, data_snd_eq (base_mem_data c channel fs) (data_mem c channel fs),
      data_mem c channel fs⟩,
    ⟨config_fst_indep c chOpt ext _ fs, ?_,
      (config_mem_iff c chOpt ext fs _).mpr (Or.inl rfl)⟩,
    ⟨rfl, cache_snd_eq (cache_mem c channel fs), cache_mem c channel fs⟩,
    ⟨rfl, custom_snd_eq (base_mem_custom c fs) (custom_mem c fs),
      custom_mem c fs⟩⟩
  exact config_snd_eq
    ((config_mem_iff c chOpt ext fs _).mpr (Or.inr (Or.inl rfl)))
    ((config_mem_iff c chOpt ext fs _).mpr (Or.inl rfl))

theorem getLast_mem_of_eq {l : Path} {a : Char} (h : l.getLast? = some a) :
    a ∈ l := by
  obtain ⟨hne, heq⟩ :=
    List.mem_getLast?_eq_getLast (show a ∈ l.getLast? from h)
  rw [heq]
  exact List.getLast_mem hne

theorem join2_length_lt {b : Path} (hb : b ≠ [])
    (hh : b.head? ≠ some '/') (a : Path) :
    a.length < (join2 a b).length := by
  unfold join2
  rw [if_neg hh]
  split
  · rw [List.length_append]
    have := List.length_pos.mpr hb
    omega
  · rw [List.length_append, List.length_cons]
    omega

theorem config_file_tail {ext : Path} (hext : ('/' : Char) ∉ ext) :
    ((("config.").data) ++ ext) ≠ []
    ∧ ((("config.").data) ++ ext).head? ≠ some '/'
    ∧ ((("config.").data) ++ ext).getLast? ≠ some '/' := by
  have hc : ("config.").data = 'c' :: (("onfig.").data) := by decide
  refine ⟨by simp [hc], by simp [hc], ?_⟩
  cases hext2 : ext with
  | nil =>
    rw [List.append_nil]
    decide
  | cons x xs =>
    rw [List.getLast?_append_of_ne_nil _ (by simp)]
    intro hlast
    rw [hext2] at hext
    exact hext (getLast_mem_of_eq hlast)

/-- Claim C9: `get_config_path` touches no filesystem entry other than
the directories it ensures — membership in the resulting filesystem is
exactly membership before the call or being the base directory or the
containing directory; the returned file path does not depend on the
filesystem state (so the file is never checked); and, for an extension
with no separator character, the returned `config.<ext>` path is none of
the created directories, so the config file itself exists afterwards
only if it already "existed" before (it is never created or
modified). -/
theorem get_config_path_frame (c : Ctx) (chOpt : Option Path) (ext : Path)
    (fs : FS) :
    (∀ p, p ∈ (get_config_path c chOpt ext fs).2
      ↔ p = (if envTruthy chOpt then (get_data_path c (chOpt.getD []) fs).1
             else join2 (get_base_path c fs).1 c.profile)
        ∨ p = (get_base_path c fs).1 ∨ p ∈ fs)
    ∧ (∀ fs2, (get_config_path c chOpt ext fs).1
        = (get_config_path c chOpt ext fs2).1)
    ∧ (('/' : Char) ∉ ext →
        ((get_config_path c chOpt ext fs).1
            ∈ (get_config_path c chOpt ext fs).2
          ↔ (get_config_path c chOpt ext fs).1 ∈ fs)) := by
  refine ⟨config_mem_iff c chOpt ext fs, config_fst_indep c chOpt ext fs, ?_⟩
  intro hext
  obtain ⟨hw_ne, hw_head, hw_last⟩ := config_file_tail hext
  rw [config_mem_iff]
  constructor
  · rintro (h | h | h)
    · rw [config_fst_eq] at h
      have hlt := join2_length_lt hw_ne hw_head
        (if envTruthy chOpt then (get_data_path c (chOpt.getD []) fs).1
         else join2 (get_base_path c fs).1 c.profile)
      rw [h] at hlt
      exact absurd hlt (lt_irrefl _)
    · have hlast : (get_config_path c chOpt ext fs).1.getLast?
          = ((("config.").data) ++ ext).getLast? := by
        rw [config_fst_eq]
        exact getLast_join2_of_ne hw_ne hw_head _
      rw [h] at hlast
      exact absurd (hlast ▸ endsWithSep_base c fs) hw_last
    · exact h
  · exact fun h => Or.inr (Or.inr h)

/-- Claim C9, witness: the frame property instantiated at a concrete
call — the returned config file path is not in the filesystem after the
call started from an empty filesystem. -/
theorem get_config_path_frame_witness :
    ¬ ((get_config_path ⟨none, none, ("alice").data, ("/home/alice").data,
        ("default").data⟩ (some (("irc").data)) (("yaml").data) []).1
      ∈ (get_config_path ⟨none, none, ("alice").data, ("/home/alice").data,
        ("default").data⟩ (some (("irc").data)) (("yaml").data) []).2) := by
  intro hmem
  have h := ((get_config_path_frame ⟨none, none, ("alice").data,
    ("/home/alice").data, ("default").data⟩ (some (("irc").data))
    (("yaml").data) []).2.2 (by decide)).mp hmem
  cases h

/-- Claim C7: `Emoji.get_source_emoji` maps `User`, `Group` and `System`
each to their designated, pairwise-distinct, non-unknown symbol, and
every other chat-type value to the designated unknown symbol; it is a
total Lean function, so it never fails. -/
theorem get_source_emoji_spec :
    Emoji.get_source_emoji ChatType.User = Emoji.USER_EMOJI
    ∧ Emoji.get_source_emoji ChatType.Group = Emoji.GROUP_EMOJI
    ∧ Emoji.get_source_emoji ChatType.System = Emoji.SYSTEM_EMOJI
    ∧ Emoji.USER_EMOJI ≠ Emoji.GROUP_EMOJI
    ∧ Emoji.USER_EMOJI ≠ Emoji.SYSTEM_EMOJI
    ∧ Emoji.GROUP_EMOJI ≠ Emoji.SYSTEM_EMOJI
    ∧ Emoji.USER_EMOJI ≠ Emoji.UNKNOWN_EMOJI
    ∧ Emoji.GROUP_EMOJI ≠ Emoji.UNKNOWN_EMOJI
    ∧ Emoji.SYSTEM_EMOJI ≠ Emoji.UNKNOWN_EMOJI
    ∧ ∀ t : ChatType, t ≠ ChatType.User → t ≠ ChatType.Group →
        t ≠ ChatType.System →
        Emoji.get_source_emoji t = Emoji.UNKNOWN_EMOJI := by
  refine ⟨rfl, rfl, rfl, by decide, by decide, by decide, by decide,
    by decide, by decide, ?_⟩
  intro t h1 h2 h3
  cases t with
  | User => exact absurd rfl h1
  | Group => exact absurd rfl h2
  | System => exact absurd rfl h3
  | Unknown => rfl

/-- Claim C7, witness: the catch-all branch instantiated at the
`Unknown` chat type. -/
theorem get_source_emoji_spec_witness :
    Emoji.get_source_emoji ChatType.Unknown = Emoji.UNKNOWN_EMOJI :=
  get_source_emoji_spec.2.2.2.2.2.2.2.2.2 ChatType.Unknown
    (by decide) (by decide) (by decide)

/-- Claim C8: applying `extra(N, D)` to a callable leaves its call
behavior (`fn`) unchanged and attaches a true `extra_fn` flag, the name
`N` and the description `D` as attributes, with no validation; applying
the decorator again with `N2`, `D2` keeps the behavior unchanged and
the last application's attribute values win. -/
theorem extra_spec {α β : Type} (f : PyFunc α β) (N D N2 D2 : String) :
    ((extra N D f).fn = f.fn)
    ∧ getAttr (extra N D f) "extra_fn" = some (AttrVal.b true)
    ∧ getAttr (extra N D f) "name" = some (AttrVal.s N)
    ∧ getAttr (extra N D f) "desc" = some (AttrVal.s D)
    ∧ ((extra N2 D2 (extra N D f)).fn = f.fn)
    ∧ getAttr (extra N2 D2 (extra N D f)) "extra_fn" = some (AttrVal.b true)
    ∧ getAttr (extra N2 D2 (extra N D f)) "name" = some (AttrVal.s N2)
    ∧ getAttr (extra N2 D2 (extra N D f)) "desc" = some (AttrVal.s D2) :=
  ⟨rfl, rfl, rfl, rfl, rfl, rfl, rfl, rfl⟩

/-- Claim C10: setting `EFB_DATA_PATH` (resp. `EFB_CACHE_PATH`) to the
empty string leaves `get_base_path` (resp. `get_cache_path`) behaving
exactly as if the variable were unset — the override check is on
truthiness of the value, not on presence of the variable. -/
theorem empty_env_override_ignored (dp cp : Option Path)
    (u h pr ch : Path) (fs : FS) :
    get_base_path ⟨some [], cp, u, h, pr⟩ fs
      = get_base_path ⟨none, cp, u, h, pr⟩ fs
    ∧ get_cache_path ⟨dp, some [], u, h, pr⟩ ch fs
      = get_cache_path ⟨dp, none, u, h, pr⟩ ch fs :=
  ⟨rfl, rfl⟩

end EFB



